import Mathlib

/-!
Verification of the DOT validation-and-deduplication core of the AnecDOT
repository.  The Python modules `src/common/id_generator.py`,
`src/validation/dot_validator.py`, `src/validation/schema.py` and
`src/validation/writer.py` are shallowly embedded below: pure functions become
Lean functions, the global LRU cache and the compiler subprocess become
explicit state threading over a `VState`, and Python exceptions become
`Except` results.  External collaborators (the Graphviz subprocess, `json`
parsing of arbitrary text, ISO-8601 timestamp parsing) are modelled as
explicit environment parameters; everything the repository itself computes is
translated directly from the source.
-/

set_option maxHeartbeats 2000000
set_option maxRecDepth 100000

namespace AnecDOT

/-! ## Python string helpers

Models of the Python `str` operations used by the source: `str.strip()`
(restricted to ASCII whitespace, which is all the repository ever feeds it),
string truthiness (`not s` is emptiness), and `str.encode('utf-8')`.
-/

/-- ASCII whitespace recognised by Python `str.strip()` (the Unicode-only
whitespace code points are not modelled; the repository only handles ASCII
whitespace in the relevant checks). -/
def pyIsSpace (c : Char) : Bool :=
  c = ' ' || c = '\t' || c = '\n' || c = '\r' || c = '\x0b' || c = '\x0c'

/-- Python `s.strip()`. -/
def pyStrip (s : String) : String :=
  ⟨((s.data.dropWhile pyIsSpace).reverse.dropWhile pyIsSpace).reverse⟩

/-- Python falsiness of a string: `not s` holds exactly when `s` is empty. -/
def pyFalsy (s : String) : Bool :=
  s.data.isEmpty

/-- UTF-8 encoding of one Unicode scalar value, as byte values
(Python `chr.encode('utf-8')`). -/
def charUtf8 (c : Char) : List Nat :=
  let n := c.toNat
  if n < 128 then [n]
  else if n < 2048 then [192 + n / 64, 128 + n % 64]
  else if n < 65536 then [224 + n / 4096, 128 + (n / 64) % 64, 128 + n % 64]
  else [240 + n / 262144, 128 + (n / 4096) % 64, 128 + (n / 64) % 64, 128 + n % 64]

/-- Python `s.encode('utf-8')` as a list of byte values. -/
def strUtf8 (s : String) : List Nat :=
  (s.data.map charUtf8).flatten

/-- Python `len(s.encode('utf-8'))`. -/
def utf8Len (s : String) : Nat :=
  (strUtf8 s).length

/-! ## SHA-256

Executable model of `hashlib.sha256(...).hexdigest()` over a list of byte
values, following FIPS 180-4.  All words are `Nat` reduced modulo `2 ^ 32`.
-/

/-- Truncate to a 32-bit word. -/
def w32 (n : Nat) : Nat := n % 4294967296

/-- Right rotation of a 32-bit word. -/
def rotr32 (x n : Nat) : Nat := w32 ((x >>> n) ||| (x <<< (32 - n)))

def smallSigma0 (x : Nat) : Nat := (rotr32 x 7) ^^^ (rotr32 x 18) ^^^ (x >>> 3)

def smallSigma1 (x : Nat) : Nat := (rotr32 x 17) ^^^ (rotr32 x 19) ^^^ (x >>> 10)

def bigSigma0 (x : Nat) : Nat := (rotr32 x 2) ^^^ (rotr32 x 13) ^^^ (rotr32 x 22)

def bigSigma1 (x : Nat) : Nat := (rotr32 x 6) ^^^ (rotr32 x 11) ^^^ (rotr32 x 25)

/-- The 64 SHA-256 round constants (FIPS 180-4 §4.2.2, written in decimal). -/
def kConst : List Nat :=
  [1116352408, 1899447441, 3049323471, 3921009573, 961987163, 1508970993,
   2453635748, 2870763221, 3624381080, 310598401, 607225278, 1426881987,
   1925078388, 2162078206, 2614888103, 3248222580, 3835390401, 4022224774,
   264347078, 604807628, 770255983, 1249150122, 1555081692, 1996064986,
   2554220882, 2821834349, 2952996808, 3210313671, 3336571891, 3584528711,
   113926993, 338241895, 666307205, 773529912, 1294757372, 1396182291,
   1695183700, 1986661051, 2177026350, 2456956037, 2730485921, 2820302411,
   3259730800, 3345764771, 3516065817, 3600352804, 4094571909, 275423344,
   430227734, 506948616, 659060556, 883997877, 958139571, 1322822218,
   1537002063, 1747873779, 1955562222, 2024104815, 2227730452, 2361852424,
   2428436474, 2756734187, 3204031479, 3329325298]

/-- Big-endian 8-byte encoding of the message bit length. -/
def lenBytes (n : Nat) : List Nat :=
  [(n >>> 56) % 256, (n >>> 48) % 256, (n >>> 40) % 256, (n >>> 32) % 256,
   (n >>> 24) % 256, (n >>> 16) % 256, (n >>> 8) % 256, n % 256]

/-- SHA-256 message padding: a `0x80` byte, zeros up to 56 mod 64, then the
bit length in 8 big-endian bytes. -/
def shaPad (msg : List Nat) : List Nat :=
  let len := msg.length
  let kZeros := (120 - ((len + 1) % 64)) % 64
  msg ++ 128 :: List.replicate kZeros 0 ++ lenBytes (8 * len)

/-- Group bytes into big-endian 32-bit words. -/
def bytesToWords : List Nat → List Nat
  | a :: b :: c :: d :: rest => (((a * 256 + b) * 256 + c) * 256 + d) :: bytesToWords rest
  | _ => []

/-- Split a word list into chunks of 16 words; the first argument is fuel
bounding the recursion. -/
def chunks16 : Nat → List Nat → List (List Nat)
  | 0, _ => []
  | _, [] => []
  | fuel + 1, ws => ws.take 16 :: chunks16 fuel (ws.drop 16)

/-- Extend the message schedule; the accumulator holds the schedule so far in
reverse order, so `acc.getD 0` is the most recent word. -/
def extendSchedule : Nat → List Nat → List Nat
  | 0, acc => acc
  | n + 1, acc =>
      let wNew := w32 (acc.getD 15 0 + smallSigma0 (acc.getD 14 0) +
        acc.getD 6 0 + smallSigma1 (acc.getD 1 0))
      extendSchedule n (wNew :: acc)

/-- The 64-word message schedule of one 16-word chunk. -/
def schedule (chunk : List Nat) : List Nat :=
  (extendSchedule 48 chunk.reverse).reverse

/-- The eight 32-bit working variables / hash state of SHA-256. -/
structure Digest8 where
  a : Nat
  b : Nat
  c : Nat
  d : Nat
  e : Nat
  f : Nat
  g : Nat
  h : Nat
deriving DecidableEq

/-- One SHA-256 round, consuming a (schedule word, round constant) pair. -/
def roundStep (s : Digest8) (wk : Nat × Nat) : Digest8 :=
  let ch := (s.e &&& s.f) ^^^ ((s.e ^^^ 4294967295) &&& s.g)
  let maj := (s.a &&& s.b) ^^^ (s.a &&& s.c) ^^^ (s.b &&& s.c)
  let t1 := w32 (s.h + bigSigma1 s.e + ch + wk.2 + wk.1)
  let t2 := w32 (bigSigma0 s.a + maj)
  ⟨w32 (t1 + t2), s.a, s.b, s.c, w32 (s.d + t1), s.e, s.f, s.g⟩

/-- Compress one 16-word chunk into the running hash state. -/
def compressChunk (hs : Digest8) (chunk : List Nat) : Digest8 :=
  let s := ((schedule chunk).zip kConst).foldl roundStep hs
  ⟨w32 (hs.a + s.a), w32 (hs.b + s.b), w32 (hs.c + s.c), w32 (hs.d + s.d),
   w32 (hs.e + s.e), w32 (hs.f + s.f), w32 (hs.g + s.g), w32 (hs.h + s.h)⟩

/-- The SHA-256 initial hash value (FIPS 180-4 §5.3.3, written in decimal). -/
def initH : Digest8 :=
  ⟨1779033703, 3144134277, 1013904242, 2773480762,
   1359893119, 2600822924, 528734635, 1541459225⟩

/-- SHA-256 of a byte list, as the final eight-word state. -/
def sha256Digest (msg : List Nat) : Digest8 :=
  let ws := bytesToWords (shaPad msg)
  (chunks16 ws.length ws).foldl compressChunk initH

/-- Lowercase hexadecimal digit for a value below 16. -/
def hexDigit (n : Nat) : Char :=
  if n < 10 then Char.ofNat (48 + n) else Char.ofNat (87 + n)

/-- Fixed-width 8-character lowercase hex rendering of a 32-bit word. -/
def wordHex (w : Nat) : List Char :=
  [hexDigit ((w >>> 28) &&& 15), hexDigit ((w >>> 24) &&& 15),
   hexDigit ((w >>> 20) &&& 15), hexDigit ((w >>> 16) &&& 15),
   hexDigit ((w >>> 12) &&& 15), hexDigit ((w >>> 8) &&& 15),
   hexDigit ((w >>> 4) &&& 15), hexDigit (w &&& 15)]

/-- Hex rendering of a full digest (the Python `hexdigest()` string). -/
def hexOfDigest (d : Digest8) : List Char :=
  wordHex d.a ++ wordHex d.b ++ wordHex d.c ++ wordHex d.d ++
  wordHex d.e ++ wordHex d.f ++ wordHex d.g ++ wordHex d.h

/-- `hashlib.sha256(msg).hexdigest()` as a character list. -/
def sha256HexChars (msg : List Nat) : List Char :=
  hexOfDigest (sha256Digest msg)

/-- `hashlib.sha256(s.encode('utf-8')).hexdigest()`. -/
def sha256HexOfString (s : String) : String :=
  ⟨sha256HexChars (strUtf8 s)⟩

/-! ## `src/common/id_generator.py` -/

/-- `generate_id(output_dot, source_prefix="")`: the SHA-256 hex digest of the
UTF-8 bytes of `output_dot`, truncated to its first 16 characters, optionally
prefixed with the source tag and a dash.  (`prefix_str` is the source's
`source_prefix` argument; Python's `if source_prefix:` is non-emptiness.) -/
def generate_id (output_dot : String) (prefix_str : String) : String :=
  let content_hash := sha256HexChars (strUtf8 output_dot)
  let short_hash : String := ⟨content_hash.take 16⟩
  if prefix_str ≠ "" then prefix_str ++ "-" ++ short_hash else short_hash

/-- Characters after the first `'-'` of a list
(Python `id_string.split('-', 1)[1]`). -/
def afterFirstDash : List Char → List Char
  | [] => []
  | c :: cs => if c = '-' then cs else afterFirstDash cs

/-- `extract_hash_from_id(id_string)`: the part after the first dash, or the
whole string when no dash occurs. -/
def extract_hash_from_id (id_string : String) : String :=
  if '-' ∈ id_string.data then ⟨afterFirstDash id_string.data⟩
  else id_string

/-! ## `src/validation/dot_validator.py`: data model

The Graphviz subprocess, `shutil.which`, `platform.system()` and the version
query are external effects; they are modelled by an explicit `Env`.  Wall
clock durations are abstract numbers supplied by the environment with each
subprocess outcome.  The module-level `functools.lru_cache` and the count of
compiler invocations become an explicit `VState` threaded through the calls;
a Python exception escaping a call is an `Except.error` carrying the
exception's message.
-/

/-- Result of DOT code validation (`ValidationResult` dataclass). -/
structure ValidationResult where
  is_valid : Bool
  error_message : Option String := none
  validation_method : String := "graphviz_compiler"
  compiler_version : Option String := none
  validation_duration : Nat := 0
deriving DecidableEq

/-- `ValidationResult.to_schema_status()`. -/
def ValidationResult.to_schema_status (r : ValidationResult) : String :=
  if r.is_valid then "passed_compiler" else "failed_compiler"

/-- Outcome of one `subprocess.run` of the compiler: normal completion with
exit code, decoded stderr and elapsed time; a `TimeoutExpired`; or some other
`Exception` carrying its text. -/
inductive RunOutcome where
  | completed (returncode : Int) (stderr : String) (duration : Nat)
  | timedOut (duration : Nat)
  | oserror (msg : String) (duration : Nat)

/-- The external environment of the validator: the host platform name, whether
`shutil.which("dot")` succeeds, the cached `dot -V` version text, and the
subprocess behaviour as a function of (dot source, timeout, output format). -/
structure Env where
  system : String
  dot_found : Bool
  compiler_version : Option String
  run : String → Nat → String → RunOutcome

/-- Platform-specific install hint used by `GraphvizNotFoundError`. -/
def installCmd (system : String) : String :=
  if system = "Linux" then "sudo apt-get install graphviz"
  else if system = "Darwin" then "brew install graphviz"
  else if system = "Windows" then "choco install graphviz or download from graphviz.org"
  else "See graphviz.org for installation instructions"

/-- The message carried by a raised `GraphvizNotFoundError`. -/
def graphvizNotFoundMessage (system : String) : String :=
  "Graphviz 'dot' command not found in PATH.\nInstall with: " ++ installCmd system

/-- One entry of the `lru_cache`: the key `(dot_code_hash, dot_code, timeout,
strict)` and the memoized result. -/
structure CacheEntry where
  key : String × String × Nat × Bool
  val : ValidationResult
deriving DecidableEq

/-- The `lru_cache` state: entries in most-recently-used-first order plus the
`cache_info()` hit and miss counters. -/
structure CacheState where
  entries : List CacheEntry
  hits : Nat
  misses : Nat
deriving DecidableEq

/-- Mutable world of the validator module: the global cache and the number of
compiler subprocess invocations performed so far. -/
structure VState where
  cache : CacheState
  invocations : Nat
deriving DecidableEq

/-- The initial world: empty cache, zero counters (module import time). -/
def initState : VState := ⟨⟨[], 0, 0⟩, 0⟩

/-- `_validate_impl(dot_code, timeout, strict, output_format)`: raises
`GraphvizNotFoundError` when `dot` is absent, otherwise classifies the
subprocess outcome.  Returns the result together with the number of compiler
invocations performed (0 when the error is raised before the subprocess). -/
def validateImpl (env : Env) (dot_code : String) (timeout : Nat) (strict : Bool)
    (output_format : String) : Except String ValidationResult × Nat :=
  if ¬ env.dot_found then
    (.error (graphvizNotFoundMessage env.system), 0)
  else
    match env.run dot_code timeout output_format with
    | .completed rc stderr dur =>
        if rc ≠ 0 then
          (.ok { is_valid := false,
                 error_message := some (if stderr ≠ "" then pyStrip stderr
                   else "Compilation failed with exit code " ++ toString rc),
                 compiler_version := env.compiler_version,
                 validation_duration := dur }, 1)
        else if strict ∧ stderr ≠ "" then
          (.ok { is_valid := false,
                 error_message := some ("Warnings treated as errors (strict mode): " ++ pyStrip stderr),
                 compiler_version := env.compiler_version,
                 validation_duration := dur }, 1)
        else
          (.ok { is_valid := true,
                 compiler_version := env.compiler_version,
                 validation_duration := dur }, 1)
    | .timedOut dur =>
        (.ok { is_valid := false,
               error_message := some ("Compilation timeout after " ++ toString timeout ++ " seconds"),
               compiler_version := env.compiler_version,
               validation_duration := dur }, 1)
    | .oserror msg dur =>
        (.ok { is_valid := false,
               error_message := some ("Unexpected error: " ++ msg),
               compiler_version := env.compiler_version,
               validation_duration := dur }, 1)

/-- `_validate_impl` with the invocation count threaded into the world. -/
def runImpl (env : Env) (dot_code : String) (timeout : Nat) (strict : Bool)
    (output_format : String) (st : VState) : Except String ValidationResult × VState :=
  let (res, n) := validateImpl env dot_code timeout strict output_format
  (res, { st with invocations := st.invocations + n })

/-- Look up a key in the LRU entry list; on success return the memoized value
and the list with that entry removed. -/
def removeKey (key : String × String × Nat × Bool) :
    List CacheEntry → Option (ValidationResult × List CacheEntry)
  | [] => none
  | e :: es =>
      if e.key = key then some (e.val, es)
      else (removeKey key es).map (fun p => (p.1, e :: p.2))

/-- Bound the entry list to the `lru_cache` capacity of 1000 by dropping the
least recently used (last) entry. -/
def evict (l : List CacheEntry) : List CacheEntry :=
  if l.length > 1000 then l.dropLast else l

/-- `_cached_validate(dot_code_hash, dot_code, timeout, strict)`: the
`functools.lru_cache(maxsize=1000)` wrapper around `_validate_impl`.  A hit
moves the entry to most-recently-used and bumps `hits`; a miss bumps `misses`
(even when the wrapped call raises, in which case nothing is cached, as in
CPython), computes with the default output format `"png"`, and inserts the
result, evicting the least recently used entry beyond capacity. -/
def cachedValidate (env : Env) (dot_hash dot_code : String) (timeout : Nat)
    (strict : Bool) (st : VState) : Except String ValidationResult × VState :=
  let key := (dot_hash, dot_code, timeout, strict)
  match removeKey key st.cache.entries with
  | some (v, rest) =>
      (.ok v, { st with cache := { entries := ⟨key, v⟩ :: rest,
                                   hits := st.cache.hits + 1,
                                   misses := st.cache.misses } })
  | none =>
      let cache : CacheState := { st.cache with misses := st.cache.misses + 1 }
      match validateImpl env dot_code timeout strict "png" with
      | (.error e, n) =>
          (.error e, { cache := cache, invocations := st.invocations + n })
      | (.ok v, n) =>
          (.ok v, { cache := { cache with entries := evict (⟨key, v⟩ :: cache.entries) },
                    invocations := st.invocations + n })

/-- `validate_dot(dot_code, timeout=10, strict=False, use_cache=True,
output_format="png")`: the empty and size pre-checks, then the cached or
direct compiler invocation. -/
def validate_dot (env : Env) (dot_code : String) (timeout : Nat) (strict : Bool)
    (use_cache : Bool) (output_format : String) (st : VState) :
    Except String ValidationResult × VState :=
  if pyFalsy dot_code || pyFalsy (pyStrip dot_code) then
    (.ok { is_valid := false, error_message := some "Empty DOT code provided" }, st)
  else if utf8Len dot_code > 10 * 1024 * 1024 then
    (.ok { is_valid := false,
           error_message := some "DOT code exceeds maximum size limit (10MB)" }, st)
  else if use_cache then
    cachedValidate env (sha256HexOfString dot_code) dot_code timeout strict st
  else
    runImpl env dot_code timeout strict output_format st

/-- `get_cache_stats()` view of `cache_info()`. -/
structure CacheStats where
  hits : Nat
  misses : Nat
  size : Nat
  maxsize : Nat
  hit_rate : ℚ
deriving DecidableEq

/-- `get_cache_stats()`: counters, current size, capacity and the hit rate
`hits / (hits + misses)` (0 when no lookups have occurred). -/
def get_cache_stats (st : VState) : CacheStats :=
  { hits := st.cache.hits,
    misses := st.cache.misses,
    size := st.cache.entries.length,
    maxsize := 1000,
    hit_rate :=
      if st.cache.hits + st.cache.misses > 0 then
        (st.cache.hits : ℚ) / ((st.cache.hits : ℚ) + (st.cache.misses : ℚ))
      else 0 }

/-- `clear_cache()`: `cache_clear()` empties the entries and resets counters. -/
def clear_cache (st : VState) : VState :=
  { st with cache := ⟨[], 0, 0⟩ }

/-! ## `validate_batch`

The sequential branch walks `enumerate(dot_codes)` in order; the parallel
branch submits one future per input and consumes them in an
`as_completed` order, modelled by an explicit list `order` of input indices.
Both write into the `results = [None] * len(dot_codes)` slot of their input
index, and both record the `(done, total)` arguments of each progress
callback invocation in a trace. -/

/-- The parallel `as_completed` loop of `validate_batch`: process futures in
completion order, write each result into its input's slot, and invoke the
progress callback with the running completion count.  A raised exception
aborts the loop (`future.result()` re-raises). -/
def parLoop (env : Env) (inputs : List String) (timeout : Nat) (strict use_cache : Bool)
    (output_format : String) :
    List Nat → List (Option ValidationResult) → VState → Nat → List (Nat × Nat) →
    Except String (List (Option ValidationResult)) × VState × List (Nat × Nat)
  | [], acc, st, _, tr => (.ok acc, st, tr)
  | idx :: rest, acc, st, completed, tr =>
      match validate_dot env (inputs.getD idx "") timeout strict use_cache output_format st with
      | (.error e, st') => (.error e, st', tr)
      | (.ok r, st') =>
          parLoop env inputs timeout strict use_cache output_format rest
            (acc.set idx (some r)) st' (completed + 1)
            (tr ++ [(completed + 1, inputs.length)])

/-- The sequential branch of `validate_batch`: iterate `enumerate(dot_codes)`
in input order, writing slot `idx` and calling the callback with
`(idx + 1, total)`. -/
def seqLoop (env : Env) (timeout : Nat) (strict use_cache : Bool)
    (output_format : String) (total : Nat) :
    List (Nat × String) → List (Option ValidationResult) → VState → List (Nat × Nat) →
    Except String (List (Option ValidationResult)) × VState × List (Nat × Nat)
  | [], acc, st, tr => (.ok acc, st, tr)
  | (idx, code) :: rest, acc, st, tr =>
      match validate_dot env code timeout strict use_cache output_format st with
      | (.error e, st') => (.error e, st', tr)
      | (.ok r, st') =>
          seqLoop env timeout strict use_cache output_format total rest
            (acc.set idx (some r)) st' (tr ++ [(idx + 1, total)])

/-- `validate_batch(dot_codes, parallel=False, ...)`; `order` is the
completion order of the futures in the parallel branch (any permutation of
the input indices) and is unused sequentially. -/
def validate_batch (env : Env) (inputs : List String) (parallel : Bool)
    (order : List Nat) (timeout : Nat) (strict use_cache : Bool)
    (output_format : String) (st : VState) :
    Except String (List (Option ValidationResult)) × VState × List (Nat × Nat) :=
  if parallel then
    parLoop env inputs timeout strict use_cache output_format order
      (List.replicate inputs.length none) st 0 []
  else
    seqLoop env timeout strict use_cache output_format inputs.length inputs.enum
      (List.replicate inputs.length none) st []

/-! ## `src/validation/schema.py`

`DataRecord` and its `validate()` check.  The ISO-8601 acceptance test
(`datetime.fromisoformat(scraped_at.replace('Z', '+00:00'))` succeeding) is an
external library behaviour and is modelled by an explicit predicate `isoOk`
applied to `scraped_at`. -/

/-- The `DataRecord` dataclass (fields in declaration order, which is also the
`asdict` serialization order). -/
structure DataRecord where
  id : String
  source : String
  source_url : String
  license : String
  task_type : String
  input_text : String
  output_dot : String
  verification_status : String
  scraped_at : String
  context_snippet : Option String := none
deriving DecidableEq

/-- `DataRecord.validate()`: the `(is_valid, error_message)` pair, checking
required fields, the two enums, and the timestamp (via `isoOk`). -/
def DataRecord.validate (isoOk : String → Bool) (r : DataRecord) : Bool × Option String :=
  if r.id = "" then (false, some "id cannot be empty")
  else if r.source = "" then (false, some "source cannot be empty")
  else if r.source_url = "" then (false, some "source_url cannot be empty")
  else if r.license = "" then (false, some "license cannot be empty")
  else if r.task_type ≠ "NL_TO_DOT" ∧ r.task_type ≠ "CODE_TO_DOT" then
    (false, some ("task_type must be NL_TO_DOT or CODE_TO_DOT, got " ++ r.task_type))
  else if r.input_text = "" then (false, some "input_text cannot be empty")
  else if r.output_dot = "" then (false, some "output_dot cannot be empty")
  else if r.verification_status ≠ "passed_compiler" ∧ r.verification_status ≠ "failed_compiler" then
    (false, some ("verification_status must be passed_compiler or failed_compiler, got "
      ++ r.verification_status))
  else if ¬ isoOk r.scraped_at then
    (false, some ("scraped_at must be valid ISO 8601 timestamp, got " ++ r.scraped_at))
  else (true, none)

/-- Minimal model of the `json.dumps` escaping of a string's characters
(quote, backslash and the common control characters; other characters pass
through as `ensure_ascii=False` leaves non-ASCII text intact). -/
def jsonEscapeChar (c : Char) : List Char :=
  if c = '"' then ['\\', '"']
  else if c = '\\' then ['\\', '\\']
  else if c = '\n' then ['\\', 'n']
  else if c = '\t' then ['\\', 't']
  else if c = '\r' then ['\\', 'r']
  else [c]

/-- A JSON string literal for `s`. -/
def jsonStr (s : String) : String :=
  "\"" ++ ⟨(s.data.map jsonEscapeChar).flatten⟩ ++ "\""

/-- A JSON string literal or `null` for an optional field. -/
def jsonOpt : Option String → String
  | none => "null"
  | some s => jsonStr s

/-- `DataRecord.to_json()`: `json.dumps(asdict(self), ensure_ascii=False)` —
one JSON object line with the fields in dataclass declaration order. -/
def DataRecord.to_json (r : DataRecord) : String :=
  String.singleton (Char.ofNat 123) ++
  "\"id\": " ++ jsonStr r.id ++ ", " ++
  "\"source\": " ++ jsonStr r.source ++ ", " ++
  "\"source_url\": " ++ jsonStr r.source_url ++ ", " ++
  "\"license\": " ++ jsonStr r.license ++ ", " ++
  "\"task_type\": " ++ jsonStr r.task_type ++ ", " ++
  "\"input_text\": " ++ jsonStr r.input_text ++ ", " ++
  "\"output_dot\": " ++ jsonStr r.output_dot ++ ", " ++
  "\"verification_status\": " ++ jsonStr r.verification_status ++ ", " ++
  "\"scraped_at\": " ++ jsonStr r.scraped_at ++ ", " ++
  "\"context_snippet\": " ++ jsonOpt r.context_snippet ++
  String.singleton (Char.ofNat 125)

/-! ## `src/validation/writer.py`

`JSONLWriter` owns the on-disk JSONL file and the in-memory id set.  The file
is modelled as the list of its lines; `json.loads` on a line is modelled by an
explicit function `parse` returning `none` for a `JSONDecodeError`,
`some none` for a JSON value without an `'id'` field, and `some (some i)` for
an object whose `'id'` field is the string `i`.  Python's `set` is a
`Finset String`. -/

/-- The writer's state: the loaded/updated id set and the file contents as a
list of record lines. -/
structure JSONLWriter where
  existing_ids : Finset String
  file : List String

/-- The per-line step of `_load_existing_ids`: strip the line, skip it when
blank or unparseable (`JSONDecodeError`) or without an `'id'` field, else add
its id to the set. -/
def loadStep (parse : String → Option (Option String)) (ids : Finset String)
    (line : String) : Finset String :=
  let l := pyStrip line
  if l = "" then ids
  else
    match parse l with
    | none => ids
    | some none => ids
    | some (some i) => insert i ids

/-- `_load_existing_ids`: fold over the file's lines, collecting the `id` of
every successfully parsed line. -/
def loadExistingIds (parse : String → Option (Option String)) (lines : List String) :
    Finset String :=
  lines.foldl (loadStep parse) ∅

/-- `JSONLWriter(output_path)`: when the path exists (`some lines`), load the
existing ids from its lines; otherwise start empty. -/
def mkWriter (parse : String → Option (Option String)) (contents : Option (List String)) :
    JSONLWriter :=
  match contents with
  | none => ⟨∅, []⟩
  | some lines => ⟨loadExistingIds parse lines, lines⟩

/-- `is_duplicate(record_id)`. -/
def JSONLWriter.is_duplicate (w : JSONLWriter) (record_id : String) : Bool :=
  record_id ∈ w.existing_ids

/-- `count_existing()`. -/
def JSONLWriter.count_existing (w : JSONLWriter) : Nat :=
  w.existing_ids.card

/-- `append(record)`: skip duplicates, raise `ValueError` on a schema-invalid
record, otherwise append one JSON line, record the id, and return `true`.
(Disk I/O failures are an environment effect outside this model.) -/
def JSONLWriter.append (isoOk : String → Bool) (w : JSONLWriter) (record : DataRecord) :
    Except String (Bool × JSONLWriter) :=
  if w.is_duplicate record.id then .ok (false, w)
  else
    let v := record.validate isoOk
    if v.1 = false then .error ("Invalid record: " ++ v.2.getD "")
    else .ok (true, ⟨insert record.id w.existing_ids, w.file ++ [record.to_json]⟩)

/-! ## Concrete instances used by counterexamples and witnesses -/

/-- The sixteen lowercase hexadecimal characters. -/
def hexAlphabet : List Char :=
  "0123456789abcdef".data

/-- An environment whose compiler is installed and accepts every input
silently. -/
def envT : Env := ⟨"Linux", true, none, fun _ _ _ => .completed 0 "" 0⟩

/-- An environment whose compiler executable is absent from the search
path. -/
def envMiss : Env := ⟨"Linux", false, none, fun _ _ _ => .timedOut 0⟩

/-- An environment whose compiler rejects every input with exit code 1 and a
padded stderr message, taking 2 time units. -/
def envFail : Env := ⟨"Linux", true, none, fun _ _ _ => .completed 1 " err " 2⟩

/-- An environment whose compiler fails exactly on the `"svg"` output format,
separating the cached path (which always uses `"png"`) from the direct
path. -/
def envFmt : Env :=
  ⟨"Linux", true, none,
   fun _ _ fmt => if fmt = "svg" then .completed 1 "bad format run" 0
     else .completed 0 "" 0⟩

/-- A whitespace-only string of 10 MiB + 1 bytes. -/
def bigSpace : String := ⟨List.replicate 10485761 ' '⟩

/-- A non-whitespace string of 10 MiB + 1 bytes. -/
def bigA : String := ⟨List.replicate 10485761 'a'⟩

/-- The line content of a well-formed record with id `"a"` (as written by
`json.dumps`), a second copy of which makes the duplicate-id counterexample. -/
def jLineA : String := "\x7b\"id\": \"a\"\x7d"

/-- A well-formed record line with id `"b"`. -/
def jLineB : String := "\x7b\"id\": \"b\"\x7d"

/-- A truncated (malformed) trailing line. -/
def badLineA : String := "\x7b\"id\": \"a\""

/-- Model of `json.loads` restricted to the concrete lines used below: the two
complete object lines parse to objects with `id` `"a"` / `"b"`, everything
else (in particular the truncated line) raises `JSONDecodeError`. -/
def parseAB (s : String) : Option (Option String) :=
  if s = jLineA then some (some "a")
  else if s = jLineB then some (some "b")
  else none

/-- Decidable equality for `Except`, letting witnesses evaluate results by
`decide`. -/
instance {ε α : Type} [DecidableEq ε] [DecidableEq α] : DecidableEq (Except ε α) := fun a b =>
  match a, b with
  | .error x, .error y =>
      if h : x = y then .isTrue (h ▸ rfl) else .isFalse (fun hh => h (Except.error.inj hh))
  | .error _, .ok _ => .isFalse (fun hh => Except.noConfusion hh)
  | .ok _, .error _ => .isFalse (fun hh => Except.noConfusion hh)
  | .ok x, .ok y =>
      if h : x = y then .isTrue (h ▸ rfl) else .isFalse (fun hh => h (Except.ok.inj hh))

/-- Invariant of a returned `ValidationResult`: the error message is present
exactly when the result is invalid. -/
def resultInvariant (r : ValidationResult) : Prop :=
  r.error_message.isSome ↔ r.is_valid = false

/-- All memoized results in the cache satisfy the result invariant. -/
def CacheWF (st : VState) : Prop :=
  ∀ e ∈ st.cache.entries, resultInvariant e.val

/-- The states of the validator module reachable from module import time by
any sequence of `validate_dot` calls against a fixed environment. -/
inductive Reachable (env : Env) : VState → Prop
  | init : Reachable env initState
  | step (st : VState) (s : String) (t : Nat) (strict uc : Bool) (fmt : String) :
      Reachable env st → Reachable env (validate_dot env s t strict uc fmt st).2

/-! ## Helper lemmas about the hex digest -/

/-- FIPS 180-4 test vector: SHA-256 of `"abc"`. -/
theorem sha256_abc_vector :
    sha256HexOfString "abc" =
      "ba7816bf8f01cfea414140de5dae2223b00361a396177a9cb410ff61f20015ad" := by
  decide

/-- FIPS 180-4 test vector: SHA-256 of the empty message. -/
theorem sha256_empty_vector :
    sha256HexOfString "" =
      "e3b0c44298fc1c149afbf4c8996fb92427ae41e4649b934ca495991b7852b855" := by
  decide

theorem hexDigit_mem16 : ∀ n < 16, hexDigit n ∈ hexAlphabet := by decide

theorem mem_wordHex (w : Nat) (c : Char) (hc : c ∈ wordHex w) : c ∈ hexAlphabet := by
  simp only [wordHex, List.mem_cons, List.not_mem_nil, or_false] at hc
  rcases hc with h | h | h | h | h | h | h | h <;>
    (rw [h]; exact hexDigit_mem16 _ (Nat.lt_succ_of_le Nat.and_le_right))

theorem sha256HexChars_length (msg : List Nat) : (sha256HexChars msg).length = 64 := by
  simp [sha256HexChars, hexOfDigest, wordHex]

theorem mem_sha256HexChars (msg : List Nat) (c : Char) (hc : c ∈ sha256HexChars msg) :
    c ∈ hexAlphabet := by
  simp only [sha256HexChars, hexOfDigest, List.mem_append] at hc
  rcases hc with ((((((h | h) | h) | h) | h) | h) | h) | h <;> exact mem_wordHex _ _ h

/-- C5: `generate_id(s, p)` is the first 16 hex characters of the SHA-256
digest of the UTF-8 bytes of `s`, prefixed by `p` and a single dash when `p`
is non-empty and exactly those 16 hexadecimal characters when `p` is empty;
the function is deterministic. -/
theorem C5_generate_id_format (s p : String) :
    (generate_id s p).data =
      (if p = "" then [] else p.data ++ ['-']) ++ (sha256HexChars (strUtf8 s)).take 16
    ∧ ((sha256HexChars (strUtf8 s)).take 16).length = 16
    ∧ (∀ c ∈ (sha256HexChars (strUtf8 s)).take 16, c ∈ hexAlphabet)
    ∧ generate_id s p = generate_id s p := by
  refine ⟨?_, ?_, ?_, rfl⟩
  · by_cases hp : p = ""
    · simp [generate_id, hp]
    · simp [generate_id, hp]
  · rw [List.length_take, sha256HexChars_length]; decide
  · intro c hc
    exact mem_sha256HexChars _ _ (List.mem_of_mem_take hc)

theorem dash_not_hex : ('-' : Char) ∉ hexAlphabet := by decide

theorem afterFirstDash_append (l₁ l₂ : List Char) (h : '-' ∉ l₁) :
    afterFirstDash (l₁ ++ '-' :: l₂) = l₂ := by
  induction l₁ with
  | nil => simp [afterFirstDash]
  | cons c cs ih =>
      simp only [List.mem_cons, not_or] at h
      have hc : ¬ (c = '-') := fun hh => h.1 hh.symm
      simp [afterFirstDash, hc, ih h.2]

/-- C6 counterexample: with the dash-containing prefix `"a-b"`, the hash
recovered by `extract_hash_from_id` is not the bare short id, refuting the
claim for arbitrary prefixes. -/
theorem C6_counterexample :
    extract_hash_from_id (generate_id "x" "a-b") ≠
      extract_hash_from_id (generate_id "x" "") := by decide

/-- C6 (amended: the prefix must not itself contain a dash, as `extractHash`
splits at the first dash): for every string `s` and dash-free prefix `p`,
`extractHash (generateId s p) = extractHash (generateId s "")`, the bare
16-hex-character short id of `s`. -/
theorem C6_extract_hash_roundtrip (s p : String) (hp : '-' ∉ p.data) :
    extract_hash_from_id (generate_id s p) =
      extract_hash_from_id (generate_id s "") := by
  have hhex : '-' ∉ (sha256HexChars (strUtf8 s)).take 16 := by
    intro hm
    exact dash_not_hex (mem_sha256HexChars _ _ (List.mem_of_mem_take hm))
  by_cases hpe : p = ""
  · rw [hpe]
  · have hdata : (generate_id s p).data =
        p.data ++ '-' :: (sha256HexChars (strUtf8 s)).take 16 := by
      have := (C5_generate_id_format s p).1
      rw [if_neg hpe] at this
      simpa using this
    have hdata0 : (generate_id s "").data = (sha256HexChars (strUtf8 s)).take 16 := by
      simpa using (C5_generate_id_format s "").1
    rw [extract_hash_from_id, extract_hash_from_id, hdata, hdata0]
    rw [if_pos (by simp), if_neg hhex, afterFirstDash_append _ _ hp]
    exact String.ext hdata0.symm

/-- Witness for C6: the amended round-trip at the concrete content `"x"` and
dash-free prefix `"pfx"`. -/
theorem C6_extract_hash_roundtrip_witness :
    extract_hash_from_id (generate_id "x" "pfx") =
      extract_hash_from_id (generate_id "x" "") :=
  C6_extract_hash_roundtrip "x" "pfx" (by decide)

/-! ## Claims about the record store -/

/-- C3: the first append of a schema-valid record with a fresh id returns
`true` and appends exactly one JSON line; every subsequent append of a record
with the same id (whatever its other fields or validity) returns `false` and
changes nothing; the count of existing records grows by exactly one across
the two calls. -/
theorem C3_dedup_idempotence (isoOk : String → Bool) (w : JSONLWriter) (r : DataRecord)
    (h1 : r.id ∉ w.existing_ids) (h2 : (r.validate isoOk).1 = true) :
    ∃ w1 : JSONLWriter,
      JSONLWriter.append isoOk w r = .ok (true, w1) ∧
      w1.file = w.file ++ [r.to_json] ∧
      (∀ r2 : DataRecord, r2.id = r.id → JSONLWriter.append isoOk w1 r2 = .ok (false, w1)) ∧
      w1.count_existing = w.count_existing + 1 := by
  have hdup : ¬ (w.is_duplicate r.id = true) := by
    simp [JSONLWriter.is_duplicate, h1]
  refine ⟨⟨insert r.id w.existing_ids, w.file ++ [r.to_json]⟩, ?_, rfl, ?_, ?_⟩
  · rw [JSONLWriter.append, if_neg hdup]
    simp [h2]
  · intro r2 hr2
    have : (⟨insert r.id w.existing_ids, w.file ++ [r.to_json]⟩ :
        JSONLWriter).is_duplicate r2.id = true := by
      simp [JSONLWriter.is_duplicate, hr2]
    rw [JSONLWriter.append, if_pos this]
  · simp [JSONLWriter.count_existing, Finset.card_insert_of_not_mem h1]

/-- Witness for C3 at a concrete writer state and record. -/
theorem C3_dedup_idempotence_witness :
    ∃ w1 : JSONLWriter,
      JSONLWriter.append (fun _ => true) ⟨∅, []⟩
          ⟨"doc-a1", "doc", "http://e", "MIT", "NL_TO_DOT", "draw", "digraph G",
           "passed_compiler", "2024-01-01T00:00:00", none⟩ = .ok (true, w1) ∧
      w1.file = [] ++ [DataRecord.to_json
          ⟨"doc-a1", "doc", "http://e", "MIT", "NL_TO_DOT", "draw", "digraph G",
           "passed_compiler", "2024-01-01T00:00:00", none⟩] ∧
      (∀ r2 : DataRecord, r2.id = "doc-a1" →
        JSONLWriter.append (fun _ => true) w1 r2 = .ok (false, w1)) ∧
      w1.count_existing = JSONLWriter.count_existing ⟨∅, []⟩ + 1 :=
  C3_dedup_idempotence (fun _ => true) ⟨∅, []⟩
    ⟨"doc-a1", "doc", "http://e", "MIT", "NL_TO_DOT", "draw", "digraph G",
     "passed_compiler", "2024-01-01T00:00:00", none⟩
    (by simp) (by decide)

theorem loadStep_mono (parse : String → Option (Option String)) (acc : Finset String)
    (line : String) (x : String) (hx : x ∈ acc) : x ∈ loadStep parse acc line := by
  rw [loadStep]
  split
  · exact hx
  · split
    · exact hx
    · exact hx
    · exact Finset.mem_insert_of_mem hx

theorem foldl_load_mono (parse : String → Option (Option String)) :
    ∀ (ls : List String) (acc : Finset String) (x : String), x ∈ acc →
      x ∈ List.foldl (loadStep parse) acc ls := by
  intro ls
  induction ls with
  | nil => intro acc x hx; exact hx
  | cons l rest ih =>
      intro acc x hx
      exact ih _ _ (loadStep_mono parse acc l x hx)

theorem loadStep_bad (parse : String → Option (Option String)) (acc : Finset String)
    (line : String) (hb : parse (pyStrip line) = none) :
    loadStep parse acc line = acc := by
  rw [loadStep]
  split
  · rfl
  · rw [hb]

theorem loadFold_spec (parse : String → Option (Option String)) :
    ∀ (pairs : List (String × String)) (acc : Finset String),
      (∀ p ∈ pairs, pyStrip p.1 ≠ "" ∧ parse (pyStrip p.1) = some (some p.2)) →
      (pairs.map Prod.snd).Nodup →
      (∀ p ∈ pairs, p.2 ∉ acc) →
      (List.foldl (loadStep parse) acc (pairs.map Prod.fst)).card = acc.card + pairs.length ∧
      (∀ p ∈ pairs, p.2 ∈ List.foldl (loadStep parse) acc (pairs.map Prod.fst)) := by
  intro pairs
  induction pairs with
  | nil => intro acc _ _ _; simp
  | cons hd rest ih =>
      intro acc hgood hnodup hfresh
      have hstep : loadStep parse acc hd.1 = insert hd.2 acc := by
        have h1 := (hgood hd (List.mem_cons_self hd rest)).1
        have h2 := (hgood hd (List.mem_cons_self hd rest)).2
        rw [loadStep]
        rw [if_neg h1, h2]
      have hmapnd := hnodup
      rw [List.map_cons, List.nodup_cons] at hmapnd
      have hfresh' : ∀ p ∈ rest, p.2 ∉ insert hd.2 acc := by
        intro p hp
        rw [Finset.mem_insert]
        push_neg
        refine ⟨?_, hfresh p (List.mem_cons_of_mem hd hp)⟩
        intro hpe
        exact hmapnd.1 (hpe ▸ List.mem_map_of_mem Prod.snd hp)
      have ihr := ih (insert hd.2 acc) (fun p hp => hgood p (List.mem_cons_of_mem hd hp))
        hmapnd.2 hfresh'
      have hcard : (insert hd.2 acc).card = acc.card + 1 :=
        Finset.card_insert_of_not_mem (hfresh hd (List.mem_cons_self hd rest))
      constructor
      · rw [List.map_cons, List.foldl_cons, hstep, ihr.1, hcard, List.length_cons]
        omega
      · intro p hp
        rw [List.map_cons, List.foldl_cons, hstep]
        rcases List.mem_cons.mp hp with hpe | hpr
        · subst hpe
          exact foldl_load_mono parse _ _ _ (Finset.mem_insert_self _ _)
        · exact ihr.2 p hpr

/-- C4 (amended: the successfully parsed ids must be pairwise distinct, since
`existingIds` is a set and `countExisting` counts distinct ids): loading a
file of N parsed lines with pairwise-distinct ids followed by one malformed
line yields `countExisting() == N`; the malformed line is skipped without
aborting, and every parsed id is reported as a duplicate. -/
theorem C4_resume_safety (parse : String → Option (Option String))
    (pairs : List (String × String)) (badLine : String)
    (hgood : ∀ p ∈ pairs, pyStrip p.1 ≠ "" ∧ parse (pyStrip p.1) = some (some p.2))
    (hnodup : (pairs.map Prod.snd).Nodup)
    (hbad : parse (pyStrip badLine) = none) :
    (mkWriter parse (some (pairs.map Prod.fst ++ [badLine]))).count_existing =
      pairs.length ∧
    ∀ p ∈ pairs,
      (mkWriter parse (some (pairs.map Prod.fst ++ [badLine]))).is_duplicate p.2 = true := by
  have hload : loadExistingIds parse (pairs.map Prod.fst ++ [badLine]) =
      List.foldl (loadStep parse) ∅ (pairs.map Prod.fst) := by
    rw [loadExistingIds]
    show List.foldl (loadStep parse) ∅ (pairs.map Prod.fst ++ [badLine]) = _
    rw [List.foldl_append, List.foldl_cons, List.foldl_nil, loadStep_bad parse _ _ hbad]
  have hspec := loadFold_spec parse pairs ∅ hgood hnodup (by simp)
  constructor
  · rw [mkWriter]
    show (loadExistingIds parse (pairs.map Prod.fst ++ [badLine])).card = pairs.length
    rw [hload, hspec.1, Finset.card_empty]
    omega
  · intro p hp
    rw [mkWriter]
    show decide (p.2 ∈ loadExistingIds parse (pairs.map Prod.fst ++ [badLine])) = true
    rw [hload]
    simpa using hspec.2 p hp

/-- C4 counterexample: a file of N = 2 lines that both parse as JSON objects
with an id field (the same id twice) followed by one malformed line loads
with `countExisting() = 1 ≠ 2`, refuting the claim for files whose parsed ids
repeat. -/
theorem C4_counterexample :
    pyStrip jLineA ≠ "" ∧
    parseAB (pyStrip jLineA) = some (some "a") ∧
    parseAB (pyStrip badLineA) = none ∧
    (mkWriter parseAB (some [jLineA, jLineA, badLineA])).count_existing = 1 ∧
    (1 : Nat) ≠ 2 := by decide

/-- Witness for C4: the amended load at a concrete two-record file with
distinct ids and a truncated trailing line. -/
theorem C4_resume_safety_witness :
    (mkWriter parseAB (some ([(jLineA, "a"), (jLineB, "b")].map Prod.fst ++ [badLineA]))).count_existing =
      ([(jLineA, "a"), (jLineB, "b")] : List (String × String)).length ∧
    ∀ p ∈ ([(jLineA, "a"), (jLineB, "b")] : List (String × String)),
      (mkWriter parseAB (some ([(jLineA, "a"), (jLineB, "b")].map Prod.fst ++ [badLineA]))).is_duplicate p.2 = true :=
  C4_resume_safety parseAB [(jLineA, "a"), (jLineB, "b")] badLineA
    (by decide) (by decide) (by decide)

/-! ## Claims about the validator pre-checks -/

theorem dropWhile_replicate_neg {p : Char → Bool} {a : Char} (h : p a = false) (n : Nat) :
    (List.replicate n a).dropWhile p = List.replicate n a := by
  cases n with
  | zero => rfl
  | succ m => rw [List.replicate_succ]; simp [List.dropWhile_cons, h]

theorem dropWhile_replicate_pos {p : Char → Bool} {a : Char} (h : p a = true) :
    ∀ n, (List.replicate n a).dropWhile p = [] := by
  intro n
  induction n with
  | zero => rfl
  | succ m ih => rw [List.replicate_succ]; simp [List.dropWhile_cons, h, ih]

theorem pyStrip_replicate_space (n : Nat) : pyStrip ⟨List.replicate n ' '⟩ = "" := by
  have hsp : pyIsSpace ' ' = true := by decide
  show (⟨((List.replicate n ' ').dropWhile pyIsSpace).reverse.dropWhile pyIsSpace |>.reverse⟩ :
    String) = ""
  rw [dropWhile_replicate_pos hsp]
  rfl

theorem pyStrip_replicate_a (n : Nat) :
    pyStrip ⟨List.replicate n 'a'⟩ = ⟨List.replicate n 'a'⟩ := by
  have ha : pyIsSpace 'a' = false := by decide
  show (⟨((List.replicate n 'a').dropWhile pyIsSpace).reverse.dropWhile pyIsSpace |>.reverse⟩ :
    String) = _
  rw [dropWhile_replicate_neg ha, List.reverse_replicate, dropWhile_replicate_neg ha,
    List.reverse_replicate]

theorem replicate_isEmpty_eq (a : Char) (n : Nat) :
    (List.replicate n a).isEmpty = decide (n = 0) := by
  cases n with
  | zero => rfl
  | succ m => rw [List.replicate_succ]; rfl

theorem emptyCheck_bigSpace : (pyFalsy bigSpace || pyFalsy (pyStrip bigSpace)) = true := by
  rw [bigSpace, pyStrip_replicate_space]
  have h2 : pyFalsy "" = true := rfl
  rw [h2, Bool.or_true]

theorem emptyCheck_bigA : (pyFalsy bigA || pyFalsy (pyStrip bigA)) = false := by
  rw [bigA, pyStrip_replicate_a]
  show ((List.replicate 10485761 'a').isEmpty || (List.replicate 10485761 'a').isEmpty) = false
  rw [replicate_isEmpty_eq]
  rfl

theorem utf8Len_replicate_one (c : Char) (hc : (charUtf8 c).length = 1) (n : Nat) :
    utf8Len ⟨List.replicate n c⟩ = n := by
  rw [utf8Len, strUtf8]
  show ((List.replicate n c).map charUtf8).flatten.length = n
  rw [List.map_replicate]
  induction n with
  | zero => rfl
  | succ m ih => rw [List.replicate_succ]; simp [ih, hc]; omega

theorem utf8Len_bigSpace : utf8Len bigSpace = 10485761 :=
  utf8Len_replicate_one ' ' (by decide) 10485761

theorem utf8Len_bigA_gt : utf8Len bigA > 10 * 1024 * 1024 := by
  have h := utf8Len_replicate_one 'a' (by decide) 10485761
  rw [bigA, h]
  omega

/-- C1 counterexample: a whitespace-only string of more than 10 MiB takes the
empty-input branch, not the size-limit branch, so its error message is the
empty-input message, refuting the size clause of the claim for such inputs. -/
theorem C1_counterexample :
    utf8Len bigSpace > 10 * 1024 * 1024 ∧
    (validate_dot envT bigSpace 10 false true "png" initState).1 =
      .ok ⟨false, some "Empty DOT code provided", "graphviz_compiler", none, 0⟩ ∧
    (some "Empty DOT code provided" : Option String) ≠
      some "DOT code exceeds maximum size limit (10MB)" := by
  refine ⟨by rw [utf8Len_bigSpace]; omega, ?_, by decide⟩
  simp [validate_dot, emptyCheck_bigSpace]

/-- C1 (amended: the size clause applies only to inputs that are not empty or
whitespace-only, since the empty pre-check runs first): an empty or
whitespace-only input yields an invalid result with the empty-input message,
duration 0, and an unchanged cache/invocation state; a non-whitespace input
whose UTF-8 byte length exceeds 10 MiB yields an invalid result with the
size-limit message, duration 0, and an unchanged state. -/
theorem C1_prechecks (env : Env) (st : VState) (t : Nat) (strict uc : Bool) (fmt : String) :
    (∀ s : String, (pyFalsy s || pyFalsy (pyStrip s)) = true →
      validate_dot env s t strict uc fmt st =
        (.ok ⟨false, some "Empty DOT code provided", "graphviz_compiler", none, 0⟩, st)) ∧
    (∀ s : String, (pyFalsy s || pyFalsy (pyStrip s)) = false →
      utf8Len s > 10 * 1024 * 1024 →
      validate_dot env s t strict uc fmt st =
        (.ok ⟨false, some "DOT code exceeds maximum size limit (10MB)",
              "graphviz_compiler", none, 0⟩, st)) := by
  constructor
  · intro s hs
    simp [validate_dot, hs]
  · intro s hs hlen
    simp [validate_dot, hs, hlen]

/-- Witness for C1: the empty branch at the whitespace string `"   "` and the
size branch at a 10 MiB + 1 string of `'a'`. -/
theorem C1_prechecks_witness :
    validate_dot envT "   " 10 false true "png" initState =
      (.ok ⟨false, some "Empty DOT code provided", "graphviz_compiler", none, 0⟩, initState) ∧
    validate_dot envT bigA 10 false true "png" initState =
      (.ok ⟨false, some "DOT code exceeds maximum size limit (10MB)",
            "graphviz_compiler", none, 0⟩, initState) :=
  ⟨(C1_prechecks envT initState 10 false true "png").1 "   " (by decide),
   (C1_prechecks envT initState 10 false true "png").2 bigA emptyCheck_bigA utf8Len_bigA_gt⟩

/-- C10 (implicit): with the cache enabled the `outputFormat` argument is not
forwarded (the cached call always validates with the default `"png"` format
and the format is not part of the cache key), so the outcome is independent
of the requested format; with the cache disabled the format does reach the
compiler, demonstrated by an environment whose compiler fails exactly on
`"svg"`. -/
theorem C10_cached_ignores_format :
    (∀ (env : Env) (s : String) (t : Nat) (strict : Bool) (f g : String) (st : VState),
      validate_dot env s t strict true f st = validate_dot env s t strict true g st) ∧
    (validate_dot envFmt "digraph" 10 false false "svg" initState).1 =
      .ok ⟨false, some "bad format run", "graphviz_compiler", none, 0⟩ ∧
    (validate_dot envFmt "digraph" 10 false false "png" initState).1 =
      .ok ⟨true, none, "graphviz_compiler", none, 0⟩ ∧
    (⟨false, some "bad format run", "graphviz_compiler", none, 0⟩ : ValidationResult) ≠
      ⟨true, none, "graphviz_compiler", none, 0⟩ := by
  refine ⟨fun env s t strict f g st => rfl, ?_, ?_, by decide⟩
  · decide
  · decide

/-! ## Helper lemmas about the compiler invocation and the cache -/

theorem validateImpl_not_found (env : Env) (code : String) (t : Nat) (strict : Bool)
    (fmt : String) (h : env.dot_found = false) :
    validateImpl env code t strict fmt = (.error (graphvizNotFoundMessage env.system), 0) := by
  rw [validateImpl, if_pos (by simp [h])]

theorem validateImpl_found (env : Env) (code : String) (t : Nat) (strict : Bool)
    (fmt : String) (h : env.dot_found = true) :
    ∃ v, validateImpl env code t strict fmt = (.ok v, 1) ∧ resultInvariant v := by
  rw [validateImpl, if_neg (by simp [h])]
  cases henv : env.run code t fmt with
  | completed rc stderr dur =>
      dsimp only
      split_ifs <;> exact ⟨_, rfl, by simp [resultInvariant]⟩
  | timedOut dur => exact ⟨_, rfl, by simp [resultInvariant]⟩
  | oserror msg dur => exact ⟨_, rfl, by simp [resultInvariant]⟩

theorem validateImpl_ok_inv (env : Env) (code : String) (t : Nat) (strict : Bool)
    (fmt : String) (v : ValidationResult) (n : Nat)
    (h : validateImpl env code t strict fmt = (.ok v, n)) : resultInvariant v := by
  by_cases hd : env.dot_found = true
  · obtain ⟨v', hv', hinv⟩ := validateImpl_found env code t strict fmt hd
    rw [hv'] at h
    obtain ⟨hv, -⟩ := Prod.mk.injEq .. ▸ h
    obtain hvv := Except.ok.inj hv
    exact hvv ▸ hinv
  · rw [validateImpl_not_found env code t strict fmt (by simpa using hd)] at h
    exact absurd (congrArg Prod.fst h) (by simp)

theorem removeKey_mem (key : String × String × Nat × Bool) :
    ∀ (l : List CacheEntry) (v : ValidationResult) (rest : List CacheEntry),
      removeKey key l = some (v, rest) →
      (∃ e ∈ l, e.val = v) ∧ (∀ x ∈ rest, x ∈ l) := by
  intro l
  induction l with
  | nil => intro v rest h; simp [removeKey] at h
  | cons e es ih =>
      intro v rest h
      rw [removeKey] at h
      split at h
      · obtain ⟨hv, hrest⟩ := Prod.mk.injEq .. ▸ Option.some.inj h
        subst hv; subst hrest
        exact ⟨⟨e, List.mem_cons_self e es, rfl⟩, fun x hx => List.mem_cons_of_mem e hx⟩
      · cases hrk : removeKey key es with
        | none => rw [hrk] at h; cases h
        | some p =>
            rw [hrk] at h
            obtain ⟨hv, hrest⟩ := Prod.mk.injEq .. ▸ Option.some.inj h
            obtain ⟨⟨e', he', hev⟩, hsub⟩ := ih p.1 p.2 (by rw [hrk])
            refine ⟨⟨e', List.mem_cons_of_mem e he', hv ▸ hev⟩, ?_⟩
            intro x hx
            rw [← hrest] at hx
            rcases List.mem_cons.mp hx with hxe | hxp
            · exact hxe ▸ List.mem_cons_self e es
            · exact List.mem_cons_of_mem e (hsub x hxp)

theorem evict_subset (l : List CacheEntry) : ∀ x ∈ evict l, x ∈ l := by
  intro x hx
  rw [evict] at hx
  split at hx
  · exact (List.dropLast_sublist l).subset hx
  · exact hx

theorem cachedValidate_ok (env : Env) (dot_hash code : String) (t : Nat) (strict : Bool)
    (st : VState) (h : env.dot_found = true) :
    ∃ r st', cachedValidate env dot_hash code t strict st = (.ok r, st') := by
  rw [cachedValidate]
  split
  · exact ⟨_, _, rfl⟩
  · obtain ⟨v, hv, -⟩ := validateImpl_found env code t strict "png" h
    rw [hv]
    exact ⟨_, _, rfl⟩

theorem validate_never_raises (env : Env) (s : String) (t : Nat) (strict uc : Bool)
    (fmt : String) (st : VState) (h : env.dot_found = true) :
    ∃ r st', validate_dot env s t strict uc fmt st = (.ok r, st') := by
  rw [validate_dot]
  split
  · exact ⟨_, _, rfl⟩
  · split
    · exact ⟨_, _, rfl⟩
    · split
      · exact cachedValidate_ok env _ s t strict st h
      · rw [runImpl]
        obtain ⟨v, hv, -⟩ := validateImpl_found env s t strict fmt h
        rw [hv]
        exact ⟨_, _, rfl⟩

theorem cachedValidate_ok_inv (env : Env) (dot_hash code : String) (t : Nat) (strict : Bool)
    (st : VState) (r : ValidationResult) (st' : VState) (hwf : CacheWF st)
    (h : cachedValidate env dot_hash code t strict st = (.ok r, st')) : resultInvariant r := by
  rw [cachedValidate] at h
  split at h
  · next v rest heq =>
      obtain ⟨hv, -⟩ := Prod.mk.injEq .. ▸ h
      obtain ⟨⟨e, he, hev⟩, -⟩ := removeKey_mem _ st.cache.entries v rest heq
      exact (Except.ok.inj hv) ▸ hev ▸ hwf e he
  · split at h
    · next e n heq => exact absurd (congrArg Prod.fst h) (by simp)
    · next v n heq =>
        obtain ⟨hv, -⟩ := Prod.mk.injEq .. ▸ h
        exact (Except.ok.inj hv) ▸ validateImpl_ok_inv env code t strict "png" v n heq

theorem validate_ok_inv (env : Env) (s : String) (t : Nat) (strict uc : Bool) (fmt : String)
    (st : VState) (r : ValidationResult) (st' : VState) (hwf : CacheWF st)
    (h : validate_dot env s t strict uc fmt st = (.ok r, st')) : resultInvariant r := by
  rw [validate_dot] at h
  split at h
  · obtain ⟨hv, -⟩ := Prod.mk.injEq .. ▸ h
    rw [← Except.ok.inj hv]
    simp [resultInvariant]
  · split at h
    · obtain ⟨hv, -⟩ := Prod.mk.injEq .. ▸ h
      rw [← Except.ok.inj hv]
      simp [resultInvariant]
    · split at h
      · exact cachedValidate_ok_inv env _ s t strict st r st' hwf h
      · rw [runImpl] at h
        rcases himpl : validateImpl env s t strict fmt with ⟨res, n⟩
        rw [himpl] at h
        obtain ⟨hv, -⟩ := Prod.mk.injEq .. ▸ h
        cases res with
        | error e => cases hv
        | ok v =>
            rw [← Except.ok.inj hv]
            exact validateImpl_ok_inv env s t strict fmt v n himpl

theorem validate_preserves_wf (env : Env) (s : String) (t : Nat) (strict uc : Bool)
    (fmt : String) (st : VState) (hwf : CacheWF st) :
    CacheWF (validate_dot env s t strict uc fmt st).2 := by
  rw [validate_dot]
  split
  · exact hwf
  · split
    · exact hwf
    · split
      · rw [cachedValidate]
        split
        · next v rest heq =>
            intro e he
            obtain ⟨⟨e', he', hev⟩, hsub⟩ := removeKey_mem _ st.cache.entries v rest heq
            rcases List.mem_cons.mp he with hee | her
            · rw [hee]
              exact hev ▸ hwf e' he'
            · exact hwf e (hsub e her)
        · split
          · next e n heq => exact hwf
          · next v n heq =>
              intro e he
              rcases List.mem_cons.mp (evict_subset _ e he) with hee | her
              · rw [hee]
                exact validateImpl_ok_inv env s t strict "png" v n heq
              · exact hwf e her
      · rw [runImpl]
        rcases himpl : validateImpl env s t strict fmt with ⟨res, n⟩
        exact hwf

theorem reachable_wf (env : Env) (st : VState) (h : Reachable env st) : CacheWF st := by
  induction h with
  | init => intro e he; cases he
  | step st s t strict uc fmt hr ih => exact validate_preserves_wf env s t strict uc fmt st ih

theorem reachable_empty_cache (env : Env) (hnf : env.dot_found = false) (st : VState)
    (h : Reachable env st) : st.cache.entries = [] := by
  induction h with
  | init => rfl
  | step st s t strict uc fmt hr ih =>
      rw [validate_dot]
      split
      · exact ih
      · split
        · exact ih
        · split
          · rw [cachedValidate]
            split
            · next v rest heq => rw [ih] at heq; simp [removeKey] at heq
            · split
              · next e n heq => exact ih
              · next v n heq =>
                  rw [validateImpl_not_found env s t strict "png" hnf] at heq
                  cases heq
          · rw [runImpl]
            rcases himpl : validateImpl env s t strict fmt with ⟨res, n⟩
            exact ih

/-- C9: every `ValidationResult` returned by validate — through the empty and
size pre-checks, compiler success or failure, strict-mode escalation, timeout,
unexpected invocation errors, or the cache — has an error message exactly when
it is invalid; and `to_schema_status` maps validity to `"passed_compiler"`
and invalidity to `"failed_compiler"`.  The state is any state reachable from
module import time. -/
theorem C9_result_invariant (env : Env) (st : VState) (s : String) (t : Nat)
    (strict uc : Bool) (fmt : String) (r : ValidationResult) (st' : VState)
    (hst : Reachable env st)
    (hr : validate_dot env s t strict uc fmt st = (.ok r, st')) :
    (r.error_message.isSome ↔ r.is_valid = false) ∧
    (r.is_valid = true → r.to_schema_status = "passed_compiler") ∧
    (r.is_valid = false → r.to_schema_status = "failed_compiler") := by
  refine ⟨validate_ok_inv env s t strict uc fmt st r st' (reachable_wf env st hst) hr, ?_, ?_⟩
  · intro hv
    rw [ValidationResult.to_schema_status, if_pos hv]
  · intro hv
    rw [ValidationResult.to_schema_status, if_neg (by simp [hv])]

/-- Witness for C9 at a concrete environment, input and the initial state. -/
theorem C9_result_invariant_witness :
    ((⟨true, none, "graphviz_compiler", none, 0⟩ : ValidationResult).error_message.isSome ↔
      (⟨true, none, "graphviz_compiler", none, 0⟩ : ValidationResult).is_valid = false) ∧
    ((⟨true, none, "graphviz_compiler", none, 0⟩ : ValidationResult).is_valid = true →
      ValidationResult.to_schema_status ⟨true, none, "graphviz_compiler", none, 0⟩ =
        "passed_compiler") ∧
    ((⟨true, none, "graphviz_compiler", none, 0⟩ : ValidationResult).is_valid = false →
      ValidationResult.to_schema_status ⟨true, none, "graphviz_compiler", none, 0⟩ =
        "failed_compiler") :=
  C9_result_invariant envT initState "x" 10 false false "png"
    ⟨true, none, "graphviz_compiler", none, 0⟩ ⟨⟨[], 0, 0⟩, 1⟩ Reachable.init (by decide)

/-- C2: when the compiler executable is absent (and the input passes the
pre-checks), validate raises the compiler-not-found error rather than
returning a result — in any state reachable with that environment; when the
compiler is present validate never raises; and every other failure kind
(empty input, oversized input, non-zero exit code, strict-mode stderr,
timeout, other invocation exceptions) is returned as an invalid
`ValidationResult` with its classifying message. -/
theorem C2_error_severity (env : Env) (st : VState) (s : String) (t : Nat)
    (strict uc : Bool) (fmt : String) :
    ((pyFalsy s || pyFalsy (pyStrip s)) = false → utf8Len s ≤ 10 * 1024 * 1024 →
      env.dot_found = false → Reachable env st →
      (validate_dot env s t strict uc fmt st).1 =
        .error (graphvizNotFoundMessage env.system)) ∧
    (env.dot_found = true →
      ∃ r, (validate_dot env s t strict uc fmt st).1 = .ok r) ∧
    ((pyFalsy s || pyFalsy (pyStrip s)) = true →
      (validate_dot env s t strict uc fmt st).1 =
        .ok ⟨false, some "Empty DOT code provided", "graphviz_compiler", none, 0⟩) ∧
    ((pyFalsy s || pyFalsy (pyStrip s)) = false → utf8Len s > 10 * 1024 * 1024 →
      (validate_dot env s t strict uc fmt st).1 =
        .ok ⟨false, some "DOT code exceeds maximum size limit (10MB)",
             "graphviz_compiler", none, 0⟩) ∧
    ((pyFalsy s || pyFalsy (pyStrip s)) = false → utf8Len s ≤ 10 * 1024 * 1024 →
      env.dot_found = true →
      ∀ rc stderr dur, env.run s t fmt = .completed rc stderr dur → rc ≠ 0 →
      (validate_dot env s t strict false fmt st).1 =
        .ok ⟨false, some (if stderr ≠ "" then pyStrip stderr
              else "Compilation failed with exit code " ++ toString rc),
             "graphviz_compiler", env.compiler_version, dur⟩) ∧
    ((pyFalsy s || pyFalsy (pyStrip s)) = false → utf8Len s ≤ 10 * 1024 * 1024 →
      env.dot_found = true →
      ∀ stderr dur, env.run s t fmt = .completed 0 stderr dur → stderr ≠ "" →
      (validate_dot env s t true false fmt st).1 =
        .ok ⟨false, some ("Warnings treated as errors (strict mode): " ++ pyStrip stderr),
             "graphviz_compiler", env.compiler_version, dur⟩) ∧
    ((pyFalsy s || pyFalsy (pyStrip s)) = false → utf8Len s ≤ 10 * 1024 * 1024 →
      env.dot_found = true →
      ∀ dur, env.run s t fmt = .timedOut dur →
      (validate_dot env s t strict false fmt st).1 =
        .ok ⟨false, some ("Compilation timeout after " ++ toString t ++ " seconds"),
             "graphviz_compiler", env.compiler_version, dur⟩) ∧
    ((pyFalsy s || pyFalsy (pyStrip s)) = false → utf8Len s ≤ 10 * 1024 * 1024 →
      env.dot_found = true →
      ∀ msg dur, env.run s t fmt = .oserror msg dur →
      (validate_dot env s t strict false fmt st).1 =
        .ok ⟨false, some ("Unexpected error: " ++ msg),
             "graphviz_compiler", env.compiler_version, dur⟩) := by
  refine ⟨?_, ?_, ?_, ?_, ?_, ?_, ?_, ?_⟩
  · intro hs hlen hnf hreach
    have hent := reachable_empty_cache env hnf st hreach
    have hlen' : ¬ (utf8Len s > 10 * 1024 * 1024) := by omega
    cases uc with
    | true =>
        simp [validate_dot, hs, hlen', cachedValidate, hent, removeKey,
          validateImpl_not_found env s t strict "png" hnf]
    | false =>
        simp [validate_dot, hs, hlen', runImpl,
          validateImpl_not_found env s t strict fmt hnf]
  · intro h3
    obtain ⟨r, st', hv⟩ := validate_never_raises env s t strict uc fmt st h3
    exact ⟨r, by rw [hv]⟩
  · intro hs
    simp [validate_dot, hs]
  · intro hs hlen
    simp [validate_dot, hs, hlen]
  · intro hs hlen h3 rc stderr dur hrun hrc
    have hlen' : ¬ (utf8Len s > 10 * 1024 * 1024) := by omega
    simp [validate_dot, hs, hlen', runImpl, validateImpl, h3, hrun, hrc]
  · intro hs hlen h3 stderr dur hrun hstderr
    have hlen' : ¬ (utf8Len s > 10 * 1024 * 1024) := by omega
    simp [validate_dot, hs, hlen', runImpl, validateImpl, h3, hrun, hstderr]
  · intro hs hlen h3 dur hrun
    have hlen' : ¬ (utf8Len s > 10 * 1024 * 1024) := by omega
    simp [validate_dot, hs, hlen', runImpl, validateImpl, h3, hrun]
  · intro hs hlen h3 msg dur hrun
    have hlen' : ¬ (utf8Len s > 10 * 1024 * 1024) := by omega
    simp [validate_dot, hs, hlen', runImpl, validateImpl, h3, hrun]

/-- Witness for C2: the not-found raise at a compilerless environment from the
initial state, the never-raises case, and the non-zero-exit classification at
a failing compiler. -/
theorem C2_error_severity_witness :
    (validate_dot envMiss "x" 10 false true "png" initState).1 =
      .error (graphvizNotFoundMessage envMiss.system) ∧
    (∃ r, (validate_dot envT "x" 10 false true "png" initState).1 = .ok r) ∧
    (validate_dot envFail "x" 10 false false "png" initState).1 =
      .ok ⟨false, some (if (" err " : String) ≠ "" then pyStrip " err "
            else "Compilation failed with exit code " ++ toString (1 : Int)),
           "graphviz_compiler", envFail.compiler_version, 2⟩ :=
  ⟨(C2_error_severity envMiss initState "x" 10 false true "png").1
      (by decide) (by decide) rfl Reachable.init,
   (C2_error_severity envT initState "x" 10 false true "png").2.1 rfl,
   (C2_error_severity envFail initState "x" 10 false false "png").2.2.2.2.1
      (by decide) (by decide) rfl 1 " err " 2 rfl (by decide)⟩

/-! ## Cache-hit lemmas and C7 -/

theorem removeKey_head (key : String × String × Nat × Bool) (v : ValidationResult)
    (l : List CacheEntry) : removeKey key (⟨key, v⟩ :: l) = some (v, l) := by
  rw [removeKey, if_pos rfl]

theorem evict_cons (e : CacheEntry) (l : List CacheEntry) :
    ∃ tail, evict (e :: l) = e :: tail := by
  rw [evict]
  split
  · next hlen =>
      cases l with
      | nil => simp at hlen
      | cons b bs => exact ⟨(b :: bs).dropLast, by simp⟩
  · exact ⟨l, rfl⟩

theorem cachedValidate_hit (env : Env) (dot_hash code : String) (t : Nat) (strict : Bool)
    (st : VState) (v : ValidationResult) (rest : List CacheEntry)
    (hent : st.cache.entries = ⟨(dot_hash, code, t, strict), v⟩ :: rest) :
    cachedValidate env dot_hash code t strict st =
      (.ok v, ⟨⟨⟨(dot_hash, code, t, strict), v⟩ :: rest, st.cache.hits + 1,
        st.cache.misses⟩, st.invocations⟩) := by
  simp only [cachedValidate]
  rw [hent, removeKey_head]

/-- After a first successful cached validation, the entry for the input's key
sits at the front of the cache with exactly the returned result. -/
theorem validate_cache_first (env : Env) (s : String) (t : Nat) (strict : Bool)
    (fmt : String) (st : VState) (r : ValidationResult) (st1 : VState)
    (hs : (pyFalsy s || pyFalsy (pyStrip s)) = false)
    (hlen : utf8Len s ≤ 10 * 1024 * 1024)
    (hv : validate_dot env s t strict true fmt st = (.ok r, st1)) :
    ∃ rest, st1.cache.entries = ⟨(sha256HexOfString s, s, t, strict), r⟩ :: rest := by
  have hlen' : ¬ (utf8Len s > 10 * 1024 * 1024) := by omega
  rw [validate_dot, if_neg (by simp [hs]), if_neg hlen', if_pos rfl] at hv
  rw [cachedValidate] at hv
  split at hv
  · next v rest heq =>
      obtain ⟨hval, hst⟩ := Prod.mk.injEq .. ▸ hv
      refine ⟨rest, ?_⟩
      rw [← hst, ← Except.ok.inj hval]
  · split at hv
    · exact absurd (congrArg Prod.fst hv) (by simp)
    · next v n heq =>
        obtain ⟨hval, hst⟩ := Prod.mk.injEq .. ▸ hv
        obtain ⟨tail, htail⟩ :=
          evict_cons ⟨(sha256HexOfString s, s, t, strict), v⟩ st.cache.entries
        refine ⟨tail, ?_⟩
        rw [← hst, ← Except.ok.inj hval]
        exact htail

/-- C7: for an input passing the pre-checks, with a present compiler, two
successive cached validate calls return results with identical validity and
error message; the second call scores a cache hit (hits grows by exactly one)
and performs no further compiler invocation; and the hit rate is
hits/(hits+misses), with 0 when no lookups have happened. -/
theorem C7_cache_correctness (env : Env) (st : VState) (s : String) (t : Nat)
    (strict : Bool) (fmt : String)
    (h1 : (pyFalsy s || pyFalsy (pyStrip s)) = false)
    (h2 : utf8Len s ≤ 10 * 1024 * 1024)
    (h3 : env.dot_found = true) :
    ∃ r1 st1 r2 st2,
      validate_dot env s t strict true fmt st = (.ok r1, st1) ∧
      validate_dot env s t strict true fmt st1 = (.ok r2, st2) ∧
      r2.is_valid = r1.is_valid ∧
      r2.error_message = r1.error_message ∧
      st2.cache.hits = st1.cache.hits + 1 ∧
      st2.invocations = st1.invocations ∧
      (get_cache_stats st2).hit_rate =
        (st2.cache.hits : ℚ) / ((st2.cache.hits : ℚ) + (st2.cache.misses : ℚ)) ∧
      (∀ st0 : VState, st0.cache.hits + st0.cache.misses = 0 →
        (get_cache_stats st0).hit_rate = 0) := by
  obtain ⟨r1, st1, hv1⟩ := validate_never_raises env s t strict true fmt st h3
  obtain ⟨rest, hrest⟩ := validate_cache_first env s t strict fmt st r1 st1 h1 h2 hv1
  have hlen' : ¬ (utf8Len s > 10 * 1024 * 1024) := by omega
  have hv2 : validate_dot env s t strict true fmt st1 =
      (.ok r1, ⟨⟨⟨(sha256HexOfString s, s, t, strict), r1⟩ :: rest,
        st1.cache.hits + 1, st1.cache.misses⟩, st1.invocations⟩) := by
    rw [validate_dot, if_neg (by simp [h1]), if_neg hlen', if_pos rfl]
    exact cachedValidate_hit env _ s t strict st1 r1 rest hrest
  refine ⟨r1, st1, r1, _, hv1, hv2, rfl, rfl, rfl, rfl, ?_, ?_⟩
  · simp only [get_cache_stats]
    rw [if_pos (by omega)]
  · intro st0 h0
    simp only [get_cache_stats]
    rw [if_neg (by omega)]

/-- Witness for C7 at a concrete environment, input and the initial state. -/
theorem C7_cache_correctness_witness :
    ∃ r1 st1 r2 st2,
      validate_dot envT "x" 10 false true "png" initState = (.ok r1, st1) ∧
      validate_dot envT "x" 10 false true "png" st1 = (.ok r2, st2) ∧
      r2.is_valid = r1.is_valid ∧
      r2.error_message = r1.error_message ∧
      st2.cache.hits = st1.cache.hits + 1 ∧
      st2.invocations = st1.invocations ∧
      (get_cache_stats st2).hit_rate =
        (st2.cache.hits : ℚ) / ((st2.cache.hits : ℚ) + (st2.cache.misses : ℚ)) ∧
      (∀ st0 : VState, st0.cache.hits + st0.cache.misses = 0 →
        (get_cache_stats st0).hit_rate = 0) :=
  C7_cache_correctness envT initState "x" 10 false "png" (by decide) (by decide) rfl

/-! ## Batch loop lemmas and C8 -/

theorem getD_set_self {α : Type} (l : List α) (i : Nat) (a d : α) (h : i < l.length) :
    (l.set i a).getD i d = a := by
  rw [List.getD_eq_getElem?_getD, List.getElem?_set_eq_of_lt a h]
  rfl

theorem getD_set_other {α : Type} (l : List α) (i j : Nat) (a d : α) (h : j ≠ i) :
    (l.set i a).getD j d = l.getD j d := by
  rw [List.getD_eq_getElem?_getD, List.getElem?_set_ne (fun hh => h hh.symm),
    ← List.getD_eq_getElem?_getD]

theorem range_map_shift (c n total : Nat) (pre : List (Nat × Nat)) :
    (pre ++ [(c + 1, total)]) ++
      (List.range n).map (fun k => (c + 1 + 1 + k, total)) =
    pre ++ (List.range (n + 1)).map (fun k => (c + 1 + k, total)) := by
  rw [List.append_assoc]
  congr 1
  rw [List.range_succ_eq_map, List.map_cons, List.map_map]
  simp only [List.singleton_append, Nat.add_zero]
  congr 1
  refine List.map_congr_left (fun a _ => ?_)
  simp only [Function.comp_apply, Nat.succ_eq_add_one]
  exact congrArg (fun m => (m, total)) (by omega)

/-- Correctness of the parallel `as_completed` loop: for any completion order
within bounds, the loop returns without error (given an installed compiler),
keeps the slot list's length, stores in every processed input's slot the
result of validating that very input, leaves unprocessed slots untouched, and
invokes the progress callback with consecutive completion counts. -/
theorem parLoop_spec (env : Env) (inputs : List String) (t : Nat) (strict uc : Bool)
    (fmt : String) (hfound : env.dot_found = true) :
    ∀ (order : List Nat) (acc : List (Option ValidationResult)) (st : VState)
      (completed : Nat) (tr : List (Nat × Nat)),
      (∀ j ∈ order, j < acc.length) →
      ∃ out st2,
        parLoop env inputs t strict uc fmt order acc st completed tr =
          (.ok out, st2,
            tr ++ (List.range order.length).map (fun k => (completed + 1 + k, inputs.length))) ∧
        out.length = acc.length ∧
        (∀ i ∈ order, ∃ st' r,
          (validate_dot env (inputs.getD i "") t strict uc fmt st').1 = .ok r ∧
          out.getD i none = some r) ∧
        (∀ i, i ∉ order → out.getD i none = acc.getD i none) := by
  intro order
  induction order with
  | nil =>
      intro acc st completed tr _
      exact ⟨acc, st, by simp [parLoop], rfl, by simp, fun i _ => rfl⟩
  | cons idx rest ih =>
      intro acc st completed tr hb
      obtain ⟨r, st', hv⟩ :=
        validate_never_raises env (inputs.getD idx "") t strict uc fmt st hfound
      have hidx : idx < acc.length := hb idx (List.mem_cons_self idx rest)
      obtain ⟨out, st2, hloop, hlen, hmem, hother⟩ :=
        ih (acc.set idx (some r)) st' (completed + 1) (tr ++ [(completed + 1, inputs.length)])
          (fun j hj => by rw [List.length_set]; exact hb j (List.mem_cons_of_mem idx hj))
      refine ⟨out, st2, ?_, by rw [hlen, List.length_set], ?_, ?_⟩
      · simp only [parLoop, hv]
        rw [hloop, range_map_shift, List.length_cons]
      · intro i hi
        rcases List.mem_cons.mp hi with hie | hir
        · subst hie
          by_cases hmem2 : i ∈ rest
          · exact hmem i hmem2
          · exact ⟨st, r, congrArg Prod.fst hv,
              (hother i hmem2).trans (getD_set_self acc i (some r) none hidx)⟩
        · exact hmem i hir
      · intro i hi
        simp only [List.mem_cons, not_or] at hi
        rw [hother i hi.2, getD_set_other acc idx i (some r) none hi.1]

/-- Correctness of the sequential branch: input order processing, positional
slots, and the callback trace `(idx + 1, total)` in input order. -/
theorem seqLoop_spec (env : Env) (t : Nat) (strict uc : Bool) (fmt : String) (total : Nat)
    (hfound : env.dot_found = true) :
    ∀ (l : List (Nat × String)) (acc : List (Option ValidationResult)) (st : VState)
      (tr : List (Nat × Nat)),
      (∀ p ∈ l, p.1 < acc.length) →
      (l.map Prod.fst).Nodup →
      ∃ out st2,
        seqLoop env t strict uc fmt total l acc st tr =
          (.ok out, st2, tr ++ l.map (fun p => (p.1 + 1, total))) ∧
        out.length = acc.length ∧
        (∀ p ∈ l, ∃ st' r,
          (validate_dot env p.2 t strict uc fmt st').1 = .ok r ∧
          out.getD p.1 none = some r) ∧
        (∀ i, (∀ p ∈ l, p.1 ≠ i) → out.getD i none = acc.getD i none) := by
  intro l
  induction l with
  | nil =>
      intro acc st tr _ _
      exact ⟨acc, st, by simp [seqLoop], rfl, by simp, fun i _ => rfl⟩
  | cons p rest ih =>
      intro acc st tr hb hnd
      rw [List.map_cons, List.nodup_cons] at hnd
      obtain ⟨r, st', hv⟩ := validate_never_raises env p.2 t strict uc fmt st hfound
      have hidx : p.1 < acc.length := hb p (List.mem_cons_self p rest)
      obtain ⟨out, st2, hloop, hlen, hmem, hother⟩ :=
        ih (acc.set p.1 (some r)) st' (tr ++ [(p.1 + 1, total)])
          (fun q hq => by rw [List.length_set]; exact hb q (List.mem_cons_of_mem p hq))
          hnd.2
      refine ⟨out, st2, ?_, by rw [hlen, List.length_set], ?_, ?_⟩
      · rcases p with ⟨idx, code⟩
        simp only [seqLoop, hv]
        rw [hloop, List.map_cons, List.append_assoc, List.singleton_append]
      · intro q hq
        rcases List.mem_cons.mp hq with hqe | hqr
        · subst hqe
          have hne : ∀ q' ∈ rest, q'.1 ≠ q.1 := by
            intro q' hq' hq'1
            exact hnd.1 (hq'1 ▸ List.mem_map_of_mem Prod.fst hq')
          exact ⟨st, r, congrArg Prod.fst hv,
            (hother q.1 hne).trans (getD_set_self acc q.1 (some r) none hidx)⟩
        · exact hmem q hqr
      · intro i hi
        have h1 : p.1 ≠ i := hi p (List.mem_cons_self p rest)
        rw [hother i (fun q hq => hi q (List.mem_cons_of_mem p hq)),
          getD_set_other acc p.1 i (some r) none (fun hh => h1 hh.symm)]

/-- C8: `validate_batch` returns exactly one result per input with result `i`
being a validation result of input `i` — under `parallel=true` for every
completion order (any permutation of the input indices), and under
`parallel=false`, where additionally the progress callback is invoked once
per input in input order with arguments `(i + 1, N)`. -/
theorem C8_batch_order (env : Env) (inputs : List String) (t : Nat) (strict uc : Bool)
    (fmt : String) (st : VState) (order : List Nat)
    (hfound : env.dot_found = true)
    (hperm : order.Perm (List.range inputs.length)) :
    (∃ out st2 tr2,
        validate_batch env inputs true order t strict uc fmt st = (.ok out, st2, tr2) ∧
        out.length = inputs.length ∧
        (∀ i, i < inputs.length → ∃ st' r,
          (validate_dot env (inputs.getD i "") t strict uc fmt st').1 = .ok r ∧
          out.getD i none = some r)) ∧
    (∃ out st2,
        validate_batch env inputs false order t strict uc fmt st =
          (.ok out, st2, (List.range inputs.length).map (fun k => (k + 1, inputs.length))) ∧
        out.length = inputs.length ∧
        (∀ i, i < inputs.length → ∃ st' r,
          (validate_dot env (inputs.getD i "") t strict uc fmt st').1 = .ok r ∧
          out.getD i none = some r)) := by
  constructor
  · have hb : ∀ j ∈ order,
        j < (List.replicate inputs.length (none : Option ValidationResult)).length := by
      intro j hj
      rw [List.length_replicate]
      exact List.mem_range.mp (hperm.mem_iff.mp hj)
    obtain ⟨out, st2, hloop, hlen, hmem, -⟩ :=
      parLoop_spec env inputs t strict uc fmt hfound order _ st 0 [] hb
    refine ⟨out, st2,
      [] ++ (List.range order.length).map (fun k => (0 + 1 + k, inputs.length)),
      ?_, by rw [hlen, List.length_replicate], ?_⟩
    · rw [validate_batch, if_pos rfl]
      exact hloop
    · intro i hi
      exact hmem i (hperm.mem_iff.mpr (List.mem_range.mpr hi))
  · have hb : ∀ p ∈ inputs.enum,
        p.1 < (List.replicate inputs.length (none : Option ValidationResult)).length := by
      intro p hp
      rw [List.length_replicate]
      exact (List.getElem?_eq_some.mp (List.mem_enum_iff_getElem?.mp hp)).choose
    have hnd : (inputs.enum.map Prod.fst).Nodup := by
      rw [List.enum_map_fst]
      exact List.nodup_range inputs.length
    obtain ⟨out, st2, hloop, hlen, hmem, -⟩ :=
      seqLoop_spec env t strict uc fmt inputs.length hfound inputs.enum _ st [] hb hnd
    have htr : inputs.enum.map (fun p => (p.1 + 1, inputs.length)) =
        (List.range inputs.length).map (fun k => (k + 1, inputs.length)) := by
      rw [show (fun p : Nat × String => (p.1 + 1, inputs.length)) =
          ((fun k => (k + 1, inputs.length)) ∘ Prod.fst) from rfl,
        ← List.map_map, List.enum_map_fst]
    refine ⟨out, st2, ?_, by rw [hlen, List.length_replicate], ?_⟩
    · rw [validate_batch, if_neg (by simp), hloop, List.nil_append, htr]
    · intro i hi
      have hmemEnum : (i, inputs.getD i "") ∈ inputs.enum := by
        apply List.mem_enum_iff_getElem?.mpr
        show inputs[i]? = some (inputs.getD i "")
        rw [List.getD_eq_getElem?_getD, List.getElem?_eq_getElem hi]
        rfl
      exact hmem _ hmemEnum

/-- Witness for C8 at a concrete environment, a two-element batch mixing a
well-formed and an empty input, and the reversed completion order. -/
theorem C8_batch_order_witness :
    (∃ out st2 tr2,
        validate_batch envT ["digraph", ""] true [1, 0] 10 false true "png" initState =
          (.ok out, st2, tr2) ∧
        out.length = (["digraph", ""] : List String).length ∧
        (∀ i, i < (["digraph", ""] : List String).length → ∃ st' r,
          (validate_dot envT ((["digraph", ""] : List String).getD i "") 10 false true "png"
            st').1 = .ok r ∧
          out.getD i none = some r)) ∧
    (∃ out st2,
        validate_batch envT ["digraph", ""] false [1, 0] 10 false true "png" initState =
          (.ok out, st2, (List.range (["digraph", ""] : List String).length).map
            (fun k => (k + 1, (["digraph", ""] : List String).length))) ∧
        out.length = (["digraph", ""] : List String).length ∧
        (∀ i, i < (["digraph", ""] : List String).length → ∃ st' r,
          (validate_dot envT ((["digraph", ""] : List String).getD i "") 10 false true "png"
            st').1 = .ok r ∧
          out.getD i none = some r)) :=
  C8_batch_order envT ["digraph", ""] 10 false true "png" initState [1, 0] rfl (by decide)

end AnecDOT
